import Mathlib

/-!
Verification development for the matrix_mozilla_bot repository.

The repository has three Rust source files:
* `src/mozilla.rs` — the `MozData` change-detection poller,
* `src/main.rs`    — an older standalone binary with its own duplicate
  poller type `Data`, the main polling loop, and simpler event handlers,
* `src/matrix.rs`  — the session/login driver and the richer event handlers.

We embed the pure decision logic of these functions shallowly: HTML
listings fetched by the network are abstracted as the list of the inner
texts of the anchor tags (in document order), `HashSet<String>` becomes
`Finset String`, and the mutable `self.data` field is modelled by explicit
state passing (input snapshot, output snapshot).
-/

/-- Embeds string character data based trailing separator removal:
the behaviour of the calls trimming the listing names in both
`MozData::query_url` and `Data::query_url`. -/
def trimSlashes (s : String) : String :=
  String.mk ((s.data.reverse.dropWhile (fun c => c = '/')).reverse)

/-- Embeds substring containment used by the name-filter in both
`MozData::query_url` and `Data::query_url`. -/
def strContains (hay needle : String) : Bool :=
  decide (needle.data <:+: hay.data)

/-- The name-filter test of `query_url`: with a configured filter the
trimmed name must contain it as a substring, with no filter everything
passes. -/
def filterOk (filter : Option String) (x : String) : Bool :=
  match filter with
  | some filt => strContains x filt
  | none => true

/-- Embeds `MozData::query_subdir` from `src/mozilla.rs`: given the
sub-listing anchor texts for candidate `cand`, drop the parent entry
and prefix the rest with the candidate name. -/
def MozData.query_subdir (cand : String) (listing : List String) : Finset String :=
  ((listing.filter (fun x => x != "..")).map (fun x => cand ++ "/" ++ x)).toFinset

/-- Embeds `MozData::query_url` from `src/mozilla.rs`.  `listing` is the
top-level anchor texts; `sub cand` the anchor texts of the sub-listing of
candidate `cand`.  Names are trimmed of trailing slashes, the parent
entry and entries failing the filter are dropped, and with
`query_subdirs` set the result is the union of the sub-listing expansions
of the surviving candidates (the top-level names themselves are then not
part of the output). -/
def MozData.query_url (filter : Option String) (query_subdirs : Bool)
    (listing : List String) (sub : String → List String) : Finset String :=
  let candidates : Finset String :=
    (((listing.map trimSlashes).filter (fun x => x != "..")).filter
      (fun x => filterOk filter x)).toFinset
  if query_subdirs then
    candidates.biUnion (fun cand => MozData.query_subdir cand (sub cand))
  else
    candidates

/-- Embeds `MozData::fetch_upstream_and_compare` from `src/mozilla.rs`.
`answer` is the candidate set returned by `query_url`, `data` the stored
snapshot; the result is the pair (returned delta, snapshot after the
call).  The first iteration, where no data is stored yet, is ignored. -/
def MozData.fetch_upstream_and_compare (answer data : Finset String) :
    Finset String × Finset String :=
  (if data = ∅ then ∅ else answer \ data, answer)

/-- Embeds `Data::query_subdir` from `src/main.rs` (identical to
`MozData::query_subdir`). -/
def Data.query_subdir (cand : String) (listing : List String) : Finset String :=
  ((listing.filter (fun x => x != "..")).map (fun x => cand ++ "/" ++ x)).toFinset

/-- Embeds `Data::query_url` from `src/main.rs`.  Unlike
`MozData::query_url` it does not drop the parent entry from the
top-level listing: only the name-filter is applied there. -/
def Data.query_url (filter : Option String) (query_subdirs : Bool)
    (listing : List String) (sub : String → List String) : Finset String :=
  let candidates : Finset String :=
    ((listing.map trimSlashes).filter (fun x => filterOk filter x)).toFinset
  if query_subdirs then
    candidates.biUnion (fun cand => Data.query_subdir cand (sub cand))
  else
    candidates

/-- Embeds `Data::fetch_upstream_and_compare` from `src/main.rs`.
Unlike `MozData::fetch_upstream_and_compare` it has no special case for
the first iteration: the delta is always the plain set difference. -/
def Data.fetch_upstream_and_compare (answer data : Finset String) :
    Finset String × Finset String :=
  (answer \ data, answer)

/-- Claim C1 counterexample: for the `Data` source of `src/main.rs` the
first poll after construction (empty stored snapshot) does not return an
empty delta — fetching the single entry set returns that whole set. -/
theorem data_first_poll_nonempty_cex :
    ¬ ((Data.fetch_upstream_and_compare {"a"} ∅).1 = ∅) := by
  simp [Data.fetch_upstream_and_compare]

/-- Claim C1 (amended): on the first poll (stored snapshot still empty)
`MozData::fetch_upstream_and_compare` returns an empty delta and stores
the full candidate set, while `Data::fetch_upstream_and_compare` of
`src/main.rs` returns the full candidate set as the delta and likewise
stores it. -/
theorem first_poll_baseline (answer : Finset String) :
    MozData.fetch_upstream_and_compare answer ∅ = (∅, answer) ∧
    Data.fetch_upstream_and_compare answer ∅ = (answer, answer) := by
  constructor
  · simp [MozData.fetch_upstream_and_compare]
  · simp [Data.fetch_upstream_and_compare]

/-- Claim C2: with a non-empty stored snapshot,
`MozData::fetch_upstream_and_compare` returns exactly the set difference
of the fetched candidates against the snapshot and replaces the snapshot
with the candidates; a second poll fetching the identical candidate set
then returns the empty delta. -/
theorem subsequent_poll_diff (answer data : Finset String) (h : data ≠ ∅) :
    MozData.fetch_upstream_and_compare answer data = (answer \ data, answer) ∧
    (MozData.fetch_upstream_and_compare answer
      (MozData.fetch_upstream_and_compare answer data).2).1 = ∅ := by
  constructor
  · simp [MozData.fetch_upstream_and_compare, h]
  · by_cases ha : answer = ∅
    · simp [MozData.fetch_upstream_and_compare, ha]
    · simp [MozData.fetch_upstream_and_compare, ha]

/-- Claim C2 witness at a concrete state. -/
theorem subsequent_poll_diff_witness :
    ({"a"} : Finset String) ≠ ∅ ∧
    (MozData.fetch_upstream_and_compare {"a", "b"} {"a"} = ({"a", "b"} \ {"a"}, {"a", "b"}) ∧
    (MozData.fetch_upstream_and_compare {"a", "b"}
      (MozData.fetch_upstream_and_compare {"a", "b"} {"a"}).2).1 = ∅) :=
  ⟨by decide, subsequent_poll_diff {"a", "b"} {"a"} (by decide)⟩

/-- Claim C10: the two duplicated pollers agree: they always leave the
snapshot in the same state, and whenever the prior snapshot is non-empty
they also return the same delta. -/
theorem pollers_agree (answer data : Finset String) :
    (MozData.fetch_upstream_and_compare answer data).2 =
      (Data.fetch_upstream_and_compare answer data).2 ∧
    (data ≠ ∅ →
      (MozData.fetch_upstream_and_compare answer data).1 =
        (Data.fetch_upstream_and_compare answer data).1) := by
  constructor
  · rfl
  · intro h
    simp [MozData.fetch_upstream_and_compare, Data.fetch_upstream_and_compare, h]

/-- Claim C10 witness at a concrete state. -/
theorem pollers_agree_witness :
    ({"a"} : Finset String) ≠ ∅ ∧
    (MozData.fetch_upstream_and_compare {"b"} {"a"}).1 =
      (Data.fetch_upstream_and_compare {"b"} {"a"}).1 :=
  ⟨by decide, (pollers_agree {"b"} {"a"}).2 (by decide)⟩

/-- Embeds the per-tick source loop of `main` in `src/main.rs` (the
`for source in &mut sources` body).  Each source is given as the pair of
its stored snapshot and the outcome of its listing fetch; a fetch error
is propagated immediately by the question-mark operator, so the
remaining sources of the tick are not polled.  The result is the list of
(delta, new snapshot) pairs of the sources that were polled, together
with the propagated error, if any. -/
def Main.tick :
    List (Finset String × Except String (Finset String)) →
      List (Finset String × Finset String) × Option String
  | [] => ([], none)
  | (_, Except.error e) :: _ => ([], some e)
  | (snap, Except.ok answer) :: rest =>
    let r := Main.tick rest
    (Data.fetch_upstream_and_compare answer snap :: r.1, r.2)

/-- Claim C3 counterexample: a tick with two sources where the first
fetch fails.  The failure is not skipped: it aborts the tick (the error
propagates out of `main`, ending the process) and the second source is
not polled at all. -/
theorem tick_abort_cex :
    Main.tick [({"a"}, Except.error ("boom")), ({"b"}, Except.ok {"c"})]
      = ([], some ("boom")) := by
  rfl

/-- Claim C3 (amended): if every source before a failing one fetches
successfully, the tick stops at the failing source: the error propagates
out of the loop (terminating `main` and the process) and exactly the
sources before the failing one were polled. -/
theorem tick_aborts_on_failure
    (pre : List (Finset String × Except String (Finset String)))
    (snap : Finset String) (e : String)
    (post : List (Finset String × Except String (Finset String)))
    (h : ∀ p ∈ pre, ∃ a, p.2 = Except.ok a) :
    (Main.tick (pre ++ (snap, Except.error e) :: post)).2 = some e ∧
    (Main.tick (pre ++ (snap, Except.error e) :: post)).1.length = pre.length := by
  induction pre with
  | nil => simp [Main.tick]
  | cons p ps ih =>
    obtain ⟨a, ha⟩ := h p (List.mem_cons_self p ps)
    have ihr := ih (fun q hq => h q (List.mem_cons_of_mem p hq))
    obtain ⟨s, r⟩ := p
    simp only at ha
    subst ha
    simp [Main.tick, ihr.1, ihr.2]

/-- Claim C3 amended witness at a concrete tick. -/
theorem tick_aborts_on_failure_witness :
    (∀ p ∈ ([({"x"}, Except.ok {"y"})] :
        List (Finset String × Except String (Finset String))),
      ∃ a, p.2 = Except.ok a) ∧
    ((Main.tick [({"x"}, Except.ok {"y"}), ({"a"}, Except.error ("boom2")),
        ({"b"}, Except.ok {"c"})]).2 = some ("boom2") ∧
      (Main.tick [({"x"}, Except.ok {"y"}), ({"a"}, Except.error ("boom2")),
        ({"b"}, Except.ok {"c"})]).1.length = 1) := by
  constructor
  · intro p hp
    simp only [List.mem_singleton] at hp
    exact ⟨{"y"}, by rw [hp]⟩
  · have h := tick_aborts_on_failure [({"x"}, Except.ok {"y"})] {"a"} ("boom2")
      [({"b"}, Except.ok {"c"})]
      (by
        intro p hp
        simp only [List.mem_singleton] at hp
        exact ⟨{"y"}, by rw [hp]⟩)
    simpa using h

/-- The error classes distinguished by the initial-sync retry loop of
`login_and_sync` in `src/matrix.rs` (the `match error.client_api_error_kind()`
arms). -/
inductive SyncErrKind where
  | noKind
  | limitExceeded
  | connectionTimeout
  | unknownToken
  | missingToken
  | forbidden
  | otherKind
deriving DecidableEq

/-- Outcome of one iteration of the `loop` in `login_and_sync` in
`src/matrix.rs`: `fatal` means the function returns the error to its
caller (which ends the process), `done` means the initial sync
succeeded and the loop breaks, `again b` means the loop runs another
iteration with `logged_in` set to `b`. -/
inductive LoopOutcome where
  | fatal
  | done
  | again (loggedIn : Bool)
deriving DecidableEq

/-- Embeds one iteration of the initial-sync `loop` of `login_and_sync`
in `src/matrix.rs`.  If `logged_in` is false the iteration first calls
`login`; a login failure propagates by the question-mark operator
(`fatal`).  Otherwise the outcome is decided by the `sync_once` result:
success breaks the loop, `UnknownToken`/`MissingToken`/`Forbidden`
clear `logged_in` and loop again, `LimitExceeded`, `ConnectionTimeout`
and kind-less errors loop again, and any other error kind is returned
(`fatal`). -/
def Matrix.login_sync_step (loggedIn loginOk : Bool)
    (syncRes : Except SyncErrKind Unit) : LoopOutcome :=
  if loggedIn = false ∧ loginOk = false then LoopOutcome.fatal
  else
    match syncRes with
    | Except.ok _ => LoopOutcome.done
    | Except.error SyncErrKind.noKind => LoopOutcome.again true
    | Except.error SyncErrKind.limitExceeded => LoopOutcome.again true
    | Except.error SyncErrKind.connectionTimeout => LoopOutcome.again true
    | Except.error SyncErrKind.unknownToken => LoopOutcome.again false
    | Except.error SyncErrKind.missingToken => LoopOutcome.again false
    | Except.error SyncErrKind.forbidden => LoopOutcome.again false
    | Except.error SyncErrKind.otherKind => LoopOutcome.fatal

/-- Claim C4: when a fresh username/password login is rejected
(`logged_in` false and the `login` call fails, as with wrong
credentials), the iteration is fatal regardless of anything else: the
error propagates out of `login_and_sync` (so the process exits) and the
loop never retries. -/
theorem login_rejected_fatal (syncRes : Except SyncErrKind Unit) :
    Matrix.login_sync_step false false syncRes = LoopOutcome.fatal := by
  simp [Matrix.login_sync_step]

/-- Embeds the membership retry loop of `on_stripped_state_member` in
`src/matrix.rs` (both the join and the reject loop share it; the
autojoin loop of `src/main.rs` is identical): the first argument is the
number of consecutive failing attempts of the retried operation (the
attempt after those, if still reached, succeeds), the second the current
delay.  The result is the list of delays actually slept and whether the
loop gave up. -/
def Matrix.membership_backoff : Nat → Nat → List Nat × Bool
  | 0, _ => ([], false)
  | n + 1, delay =>
    let d := delay * 2
    if 3600 < d then ([delay], true)
    else
      let r := Matrix.membership_backoff n d
      (delay :: r.1, r.2)

/-- The backoff schedule generalized over a starting delay that is a
power of two. -/
theorem membership_backoff_pow (n : Nat) :
    ∀ m, 1 ≤ m → m ≤ 11 →
      (Matrix.membership_backoff n (2 ^ m)).1 =
        (List.range (min n (12 - m))).map (fun k => 2 ^ (m + k)) ∧
      ((Matrix.membership_backoff n (2 ^ m)).2 = true ↔ 12 - m ≤ n) := by
  induction n with
  | zero =>
    intro m h1 h2
    refine ⟨by simp [Matrix.membership_backoff], ?_⟩
    simp only [Matrix.membership_backoff]
    simp only [Bool.false_eq_true, false_iff]
    omega
  | succ n ih =>
    intro m h1 h2
    have hd : 2 ^ m * 2 = 2 ^ (m + 1) := (pow_succ 2 m).symm
    by_cases hm : m = 11
    · subst hm
      have hgt : 3600 < 2 ^ 11 * 2 := by norm_num
      have hunf : Matrix.membership_backoff (n + 1) (2 ^ 11) = ([2 ^ 11], true) := by
        simp only [Matrix.membership_backoff]
        rw [if_pos hgt]
      have hmin : min (n + 1) (12 - 11) = 1 := by omega
      constructor
      · rw [hunf, hmin]
        simp [List.range_succ]
      · rw [hunf]
        simp only [true_iff]
        omega
    · have hm10 : m ≤ 10 := by omega
      have hle : 2 ^ (m + 1) ≤ 3600 := by
        calc 2 ^ (m + 1) ≤ 2 ^ 11 := Nat.pow_le_pow_right (by norm_num) (by omega)
        _ ≤ 3600 := by norm_num
      have hngt : ¬ 3600 < 2 ^ m * 2 := by omega
      have hunf : Matrix.membership_backoff (n + 1) (2 ^ m) =
          (2 ^ m :: (Matrix.membership_backoff n (2 ^ (m + 1))).1,
            (Matrix.membership_backoff n (2 ^ (m + 1))).2) := by
        simp only [Matrix.membership_backoff]
        rw [if_neg hngt, hd]
      have ihm := ih (m + 1) (by omega) (by omega)
      constructor
      · simp only [hunf]
        rw [ihm.1]
        have hmin : min (n + 1) (12 - m) = (min n (12 - (m + 1))) + 1 := by omega
        rw [hmin, List.range_succ_eq_map]
        simp only [List.map_cons, List.map_map]
        have hh : m + 0 = m := by omega
        rw [hh]
        refine congrArg (List.cons (2 ^ m)) ?_
        apply List.map_congr_left
        intro k _
        simp only [Function.comp_apply]
        congr 1
        omega
      · simp only [hunf]
        rw [ihm.2]
        omega

/-- Claim C7: the membership backoff delay sequence is deterministic:
with `n` consecutive failures the delays slept are `2, 4, 8, ...` (the
first `min n 11` powers `2 ^ (k + 1)`), and the loop gives up exactly
when the doubled delay would exceed 3600 seconds, i.e. from the 11th
failure on (after sleeping 2048s the next delay 4096 exceeds 3600).
Give-up is a normal exit of the spawned task, not a process failure. -/
theorem membership_backoff_sequence (n : Nat) :
    (Matrix.membership_backoff n 2).1 =
      (List.range (min n 11)).map (fun k => 2 ^ (k + 1)) ∧
    ((Matrix.membership_backoff n 2).2 = true ↔ 11 ≤ n) := by
  have h := membership_backoff_pow n 1 (by norm_num) (by norm_num)
  rw [pow_one] at h
  have h12 : 12 - 1 = 11 := by norm_num
  rw [h12] at h
  refine ⟨?_, h.2⟩
  rw [h.1]
  apply List.map_congr_left
  intro k _
  congr 1
  omega

/-- Observable effects of a message handler: sending a text reply into
the room, or leaving the room. -/
inductive BotAction where
  | send (msg : String)
  | leaveRoom
deriving DecidableEq

/-- The configuration fields of `SharedState.cfg` read by
`on_room_message` in `src/matrix.rs`. -/
structure MsgCfg where
  ignore_own_messages : Bool
  accept_commands_from : List String

/-- Embeds `on_room_message` from `src/matrix.rs`.  `ownId` is
`client.user_id()`, `joined` whether the room state is Joined, `body`
the text body of the event (`none` for a non-text message).  The result
is the list of emitted actions and the watched-rooms registry after the
call.  The three command checks are sequential `if`s exactly as in the
source. -/
def Matrix.on_room_message (cfg : MsgCfg) (ownId : Option String) (joined : Bool)
    (sender roomId : String) (body : Option String) (rooms : Finset String) :
    List BotAction × Finset String :=
  if joined then
    if cfg.ignore_own_messages ∧ some sender = ownId then ([], rooms)
    else if cfg.accept_commands_from = [] ∨ sender ∈ cfg.accept_commands_from then
      match body with
      | none => ([], rooms)
      | some b =>
        let s1 : List BotAction × Finset String :=
          if b = "!ping" then ([BotAction.send ("pong")], rooms) else ([], rooms)
        let s2 : List BotAction × Finset String :=
          if b = "!leave" then
            (s1.1 ++ [BotAction.send ("Bye"), BotAction.leaveRoom], s1.2.erase roomId)
          else s1
        if b = "!watch" then
          (s2.1 ++ [BotAction.send ("Watching...")], insert roomId s2.2)
        else s2
    else ([], rooms)
  else ([], rooms)

/-- Embeds `on_room_message` from `src/main.rs` (the older binary): no
allow-list, no ping command, and the leave command does not touch the
watched-rooms registry. -/
def Main.on_room_message (ignore_own : Bool) (ownId : Option String) (joined : Bool)
    (sender roomId : String) (body : Option String) (rooms : Finset String) :
    List BotAction × Finset String :=
  if joined then
    if ignore_own ∧ some sender = ownId then ([], rooms)
    else
      match body with
      | none => ([], rooms)
      | some b =>
        let s1 : List BotAction × Finset String :=
          if b = "!leave" then ([BotAction.send ("Bye"), BotAction.leaveRoom], rooms)
          else ([], rooms)
        if b = "!watch" then
          (s1.1 ++ [BotAction.send ("Watching...")], insert roomId s1.2)
        else s1
  else ([], rooms)

/-- Claim C5 counterexample: in the handler of `src/main.rs`, a
processed leave command leaves the room (the `leaveRoom` action is
emitted) but the watched-rooms registry still contains that room
afterwards. -/
theorem main_leave_keeps_room_cex :
    BotAction.leaveRoom ∈
      (Main.on_room_message true (some ("bot")) true "user" "room1"
        (some ("!leave")) {"room1"}).1 ∧
    "room1" ∈
      (Main.on_room_message true (some ("bot")) true "user" "room1"
        (some ("!leave")) {"room1"}).2 := by
  constructor <;> decide

/-- Claim C5 (amended): in `on_room_message` of `src/matrix.rs`, a
processed leave command (joined room, not a self message, sender
allowed) replies the farewell, leaves the room and evicts the room from
the watched-rooms registry, so the registry no longer contains the left
room; the older handler in `src/main.rs` performs no such eviction. -/
theorem matrix_leave_evicts_room (cfg : MsgCfg) (ownId : Option String)
    (sender roomId : String) (rooms : Finset String)
    (hown : ¬ (cfg.ignore_own_messages ∧ some sender = ownId))
    (hallow : cfg.accept_commands_from = [] ∨ sender ∈ cfg.accept_commands_from) :
    (Matrix.on_room_message cfg ownId true sender roomId (some ("!leave")) rooms).1
      = [BotAction.send ("Bye"), BotAction.leaveRoom] ∧
    (Matrix.on_room_message cfg ownId true sender roomId (some ("!leave")) rooms).2
      = rooms.erase roomId ∧
    roomId ∉
      (Matrix.on_room_message cfg ownId true sender roomId (some ("!leave")) rooms).2 := by
  have hb1 : ("!leave" = "!ping") = False := by simp
  have hb2 : ("!leave" = "!watch") = False := by simp
  refine ⟨?_, ?_, ?_⟩ <;>
    simp [Matrix.on_room_message, hown, hallow, hb1, hb2, Finset.not_mem_erase]

/-- Claim C5 amended witness at a concrete message. -/
theorem matrix_leave_evicts_room_witness :
    (¬ ((MsgCfg.mk true ["user"]).ignore_own_messages ∧
        some "user" = some ("bot"))) ∧
    "roomA" ∉
      (Matrix.on_room_message (MsgCfg.mk true ["user"]) (some ("bot")) true
        "user" "roomA" (some ("!leave")) {"roomA"}).2 :=
  ⟨by simp, (matrix_leave_evicts_room (MsgCfg.mk true ["user"]) (some ("bot"))
    "user" "roomA" {"roomA"} (by simp) (Or.inr (by simp))).2.2⟩

/-- The decision taken by `on_stripped_state_member` in `src/matrix.rs`
for an invitation: join the room or reject (leave) it. -/
inductive InviteDecision where
  | join
  | reject
deriving DecidableEq

/-- Embeds the decision logic of `on_stripped_state_member` from
`src/matrix.rs`: events whose state key is not our own user id are
ignored, as are rooms not in the Invited state; otherwise the invite is
joined when the allow-list is empty or contains the inviter
(`room_member.sender`) and rejected otherwise. -/
def Matrix.on_stripped_state_member (ownId stateKey : String) (invited : Bool)
    (accept_commands_from : List String) (inviter : String) :
    Option InviteDecision :=
  if stateKey ≠ ownId then none
  else if invited then
    some (if accept_commands_from = [] ∨ inviter ∈ accept_commands_from then
      InviteDecision.join
    else
      InviteDecision.reject)
  else none

/-- Claim C8: the allow-list policy of `src/matrix.rs`.  With an empty
`accept_commands_from` every invitation (targeted at us) is joined and
every command is processed; with a non-empty list an invitation is
joined exactly when the inviter is listed (rejected otherwise) and a
command from an unlisted sender is silently ignored: no action is
emitted and the registry is unchanged. -/
theorem allow_list_policy (allow : List String) (own sender inviter roomId : String)
    (rooms : Finset String) (body : Option String)
    (hsender : sender ≠ own) :
    (allow = [] →
      (Matrix.on_room_message (MsgCfg.mk true allow) (some own) true sender roomId
          (some ("!ping")) rooms).1 = [BotAction.send ("pong")] ∧
      Matrix.on_stripped_state_member own own true allow inviter =
        some InviteDecision.join) ∧
    (allow ≠ [] →
      ((Matrix.on_room_message (MsgCfg.mk true allow) (some own) true sender roomId
          (some ("!ping")) rooms).1 =
        if sender ∈ allow then [BotAction.send ("pong")] else []) ∧
      (Matrix.on_stripped_state_member own own true allow inviter =
        some (if inviter ∈ allow then InviteDecision.join
          else InviteDecision.reject)) ∧
      (sender ∉ allow →
        Matrix.on_room_message (MsgCfg.mk true allow) (some own) true sender roomId
          body rooms = ([], rooms))) := by
  have hown : ¬ ((MsgCfg.mk true allow).ignore_own_messages ∧ some sender = some own) := by
    simp [hsender]
  have hb1 : ("!ping" = "!leave") = False := by simp
  have hb2 : ("!ping" = "!watch") = False := by simp
  constructor
  · intro hempty
    subst hempty
    constructor
    · simp [Matrix.on_room_message, hown, hsender, hb1, hb2]
    · simp [Matrix.on_stripped_state_member]
  · intro hne
    refine ⟨?_, ?_, ?_⟩
    · by_cases hmem : sender ∈ allow
      · simp [Matrix.on_room_message, hown, hsender, hmem, hb1, hb2]
      · simp [Matrix.on_room_message, hown, hsender, hmem, hne, hb1, hb2]
    · by_cases hmem : inviter ∈ allow
      · simp [Matrix.on_stripped_state_member, hmem]
      · simp [Matrix.on_stripped_state_member, hmem, hne]
    · intro hmem
      cases body with
      | none => simp [Matrix.on_room_message, hown, hsender, hmem, hne]
      | some b => simp [Matrix.on_room_message, hown, hsender, hmem, hne]

/-- Claim C8 witness at concrete actors. -/
theorem allow_list_policy_witness :
    ("user" ≠ "bot") ∧
    ((["user"] : List String) ≠ [] →
      ((Matrix.on_room_message (MsgCfg.mk true ["user"]) (some ("bot")) true "user"
          "roomB" (some ("!ping")) ∅).1 =
        if "user" ∈ ["user"] then [BotAction.send ("pong")] else []) ∧
      (Matrix.on_stripped_state_member "bot" "bot" true ["user"] "evil" =
        some (if "evil" ∈ ["user"] then InviteDecision.join
          else InviteDecision.reject)) ∧
      ("user" ∉ ["user"] →
        Matrix.on_room_message (MsgCfg.mk true ["user"]) (some ("bot")) true "user"
          "roomB" (some ("!watch")) ∅ = ([], ∅))) :=
  ⟨by simp,
    (allow_list_policy ["user"] "bot" "user" "evil" "roomB" ∅ (some ("!watch"))
      (by simp)).2⟩

/-- Claim C6: a top-level entry whose trimmed name fails the name-filter
contributes nothing: dropping it from the top-level listing changes
neither the candidate set computed by `MozData::query_url` (whatever its
sub-listing would have contained) nor the delta returned by
`MozData::fetch_upstream_and_compare` for any stored snapshot. -/
theorem filter_before_recursion (filter : Option String) (qs : Bool) (e : String)
    (listing : List String) (sub : String → List String) (snap : Finset String)
    (h : filterOk filter (trimSlashes e) = false) :
    MozData.query_url filter qs (e :: listing) sub
      = MozData.query_url filter qs listing sub ∧
    MozData.fetch_upstream_and_compare
        (MozData.query_url filter qs (e :: listing) sub) snap
      = MozData.fetch_upstream_and_compare
        (MozData.query_url filter qs listing sub) snap := by
  have key : (((e :: listing).map trimSlashes).filter (fun x => x != "..")).filter
      (fun x => filterOk filter x) =
      ((listing.map trimSlashes).filter (fun x => x != "..")).filter
      (fun x => filterOk filter x) := by
    by_cases hp : (trimSlashes e != "..") = true
    · simp [List.filter_cons, hp, h]
    · simp [List.filter_cons, hp]
  have hq : MozData.query_url filter qs (e :: listing) sub
      = MozData.query_url filter qs listing sub := by
    simp only [MozData.query_url]
    rw [key]
  exact ⟨hq, by rw [hq]⟩

/-- Claim C6 witness at a concrete listing: the filtered-out `beta/`
entry makes no difference, even though its sub-listing has entries. -/
theorem filter_before_recursion_witness :
    filterOk (some ("esr")) (trimSlashes ("beta/")) = false ∧
    MozData.query_url (some ("esr")) true ["beta/", "91.0esr/"] (fun _ => ["sub1"])
      = MozData.query_url (some ("esr")) true ["91.0esr/"] (fun _ => ["sub1"]) :=
  ⟨by decide, (filter_before_recursion (some ("esr")) true "beta/" ["91.0esr/"]
    (fun _ => ["sub1"]) ∅ (by decide)).1⟩

/-- A prefixed sub-listing entry is never the parent entry. -/
theorem append_slash_ne_parent (c x : String) : c ++ "/" ++ x ≠ ".." := by
  have h2 : ('/' : Char) ∈ (c ++ "/" ++ x).data := by
    rw [String.data_append, String.data_append]
    refine List.mem_append.mpr (Or.inl (List.mem_append.mpr (Or.inr ?_)))
    decide
  intro hc
  rw [hc] at h2
  exact absurd h2 (by decide)

/-- `MozData::query_subdir` never produces the parent entry. -/
theorem moz_subdir_ne_parent (cand : String) (l : List String) (n : String)
    (hn : n ∈ MozData.query_subdir cand l) : n ≠ ".." := by
  simp only [MozData.query_subdir, List.mem_toFinset, List.mem_map] at hn
  obtain ⟨x, _, hmap⟩ := hn
  rw [← hmap]
  exact append_slash_ne_parent cand x

/-- Claim C9 counterexample: `Data::query_url` of `src/main.rs` does not
drop the parent entry at the top level, so with no configured filter the
parent entry appears in its candidate set. -/
theorem data_parent_entry_cex :
    ".." ∈ Data.query_url none false ["..", "a"] (fun _ => []) := by
  decide

/-- Claim C9 (amended): every candidate set produced by
`MozData::query_url` (top-level or recursive) and every sub-listing
candidate set produced by `MozData::query_subdir` excludes the parent
entry; `Data::query_url` of `src/main.rs`, by contrast, keeps a
top-level parent entry that passes the name-filter. -/
theorem moz_excludes_parent (filter : Option String) (qs : Bool)
    (listing : List String) (sub : String → List String)
    (cand : String) (subListing : List String) (n : String) :
    (n ∈ MozData.query_url filter qs listing sub → n ≠ "..") ∧
    (n ∈ MozData.query_subdir cand subListing → n ≠ "..") := by
  constructor
  · intro hn
    simp only [MozData.query_url] at hn
    by_cases hqs : qs = true
    · rw [if_pos hqs] at hn
      obtain ⟨c, _, hmem⟩ := Finset.mem_biUnion.mp hn
      exact moz_subdir_ne_parent c (sub c) n hmem
    · rw [if_neg hqs, List.mem_toFinset] at hn
      have h1 := List.mem_filter.mp (List.mem_filter.mp hn).1
      simpa using h1.2
  · intro hn
    exact moz_subdir_ne_parent cand subListing n hn

/-- Claim C9 amended witness at a concrete listing. -/
theorem moz_excludes_parent_witness :
    ("a" ∈ MozData.query_url none false ["a", ".."] (fun _ => [])) ∧
    ("a" : String) ≠ ".." :=
  ⟨by decide, (moz_excludes_parent none false ["a", ".."] (fun _ => [])
    "c" ["s"] "a").1 (by decide)⟩
